import Mathlib

/-!
# Server lifecycle of `cloud-application-in-golang`

A shallow embedding of `server/server.go` (`New`, `Start`, `Stop`) and of
`cmd/server/main.go` (`main`), together with the small part of the Go standard
library these functions call (`net.JoinHostPort`, `strconv.Itoa`, `fmt.Errorf`,
`errors.Is`, `context.WithTimeout`, and the shutdown guard of `net/http.Server`).

Conventions
* a Go `error` interface value is `Option GoError` (`none` is `nil`);
* a Go pointer that may be nil is an `Option`;
* calls into collaborators whose outcome the package does not control
  (`ListenAndServe`, `Shutdown`, the clock, the allocator) are parameters;
* observable calls are recorded in an event trace.
-/

namespace CloudApp

/-! ## Go standard library: time -/

/-- Go `time.Duration`: a number of nanoseconds. -/
abbrev Duration := Int

/-- Go `time.Second`, in nanoseconds. -/
def Second : Duration := 1000000000

/-! ## Go standard library: strconv and net -/

/-- Go `strconv.Itoa`: the base-10 text of an integer, with a leading minus sign
for negative values. -/
def Itoa (i : Int) : String :=
  if i < 0 then "-" ++ Nat.repr i.natAbs else Nat.repr i.natAbs

/-- Index of the first occurrence of `b` in `l`, or `-1` when there is none. -/
def indexByte : List Char → Char → Int
  | [], _ => -1
  | c :: cs, b =>
    if c = b then 0
    else
      let r := indexByte cs b
      if r < 0 then -1 else r + 1

/-- Go `bytealg.IndexByteString`.  The search runs over the characters of the
string; the only byte searched for is the ASCII colon, which never occurs inside
a multi-byte UTF-8 sequence, so the sign of the result is the one Go computes. -/
def IndexByteString (s : String) (b : Char) : Int :=
  indexByte s.toList b

/-- Go `net.JoinHostPort`:
```
if bytealg.IndexByteString(host, ':') >= 0 {
    return "[" + host + "]:" + port
}
return host + ":" + port
```
-/
def JoinHostPort (host port : String) : String :=
  if IndexByteString host ':' ≥ 0 then "[" ++ host ++ "]:" ++ port
  else host ++ ":" ++ port

/-! ## Go standard library: errors and fmt -/

/-- A non-nil Go error value.  `ident` is what Go's `==` compares (the address of
a pointer-typed error), `msg` is the text returned by `Error()`, and a `wrapping`
error has an `Unwrap()` method returning `err`. -/
inductive GoError where
  | plain (ident : Nat) (msg : String) : GoError
  | wrapping (ident : Nat) (msg : String) (err : GoError) : GoError
  deriving DecidableEq, Repr

/-- The identity of an error value. -/
def GoError.ident : GoError → Nat
  | .plain i _ => i
  | .wrapping i _ _ => i

/-- Go `err.Error()`. -/
def GoError.Error : GoError → String
  | .plain _ m => m
  | .wrapping _ m _ => m

/-- Go `errors.Unwrap(err)`; `none` when the error has no `Unwrap` method. -/
def GoError.Unwrap : GoError → Option GoError
  | .plain _ _ => none
  | .wrapping _ _ e => some e

/-- Go `err == target` on two non-nil error values. -/
def GoError.same (e t : GoError) : Bool :=
  e.ident == t.ident

/-- The loop of Go `errors.is`: compare, then follow `Unwrap`. -/
def GoError.isChain : GoError → GoError → Bool
  | .plain i m, t => (GoError.plain i m).same t
  | .wrapping i m e, t => (GoError.wrapping i m e).same t || e.isChain t

/-- Go `errors.Is(err, target)`. -/
def errorsIs : Option GoError → Option GoError → Bool
  | some e, some t => e.isChain t
  | none, none => true
  | _, _ => false

/-- Go `fmt.Errorf(text)` for a format without verbs: a new error at address `a`
with no `Unwrap` method. -/
def Errorf (a : Nat) (text : String) : GoError :=
  .plain a text

/-- Go `fmt.Errorf(pre + "%w", err)`: a new error at address `a` whose text is
`pre` followed by `err.Error()` and whose `Unwrap` returns `err`. -/
def ErrorfW (a : Nat) (pre : String) (err : GoError) : GoError :=
  .wrapping a (pre ++ err.Error) err

/-- Address of the package-level variable `http.ErrServerClosed`. -/
def addrErrServerClosed : Nat := 1

/-- Go `http.ErrServerClosed = errors.New("http: Server closed")`. -/
def ErrServerClosed : GoError :=
  .plain addrErrServerClosed "http: Server closed"

/-! ## Go standard library: context -/

/-- Go `context.Context` values built by `Background`, `WithCancel` and
`WithDeadline`; deadlines are clock readings in nanoseconds. -/
inductive Context where
  | background : Context
  | withCancel (parent : Context) : Context
  | withDeadline (parent : Context) (deadline : Int) : Context
  deriving DecidableEq, Repr

/-- Go `ctx.Deadline()`. -/
def Context.Deadline : Context → Option Int
  | .background => none
  | .withCancel p => p.Deadline
  | .withDeadline _ d => some d

/-- Go `context.WithDeadline(parent, d)`: when the parent already ends earlier the
result is only a cancellable child. -/
def WithDeadline (parent : Context) (d : Int) : Context :=
  match parent.Deadline with
  | some cur => if cur < d then .withCancel parent else .withDeadline parent d
  | none => .withDeadline parent d

/-- Go `context.WithTimeout(parent, timeout)`, which is
`WithDeadline(parent, time.Now().Add(timeout))`; `now` is the clock reading. -/
def WithTimeout (now : Int) (parent : Context) (timeout : Duration) : Context :=
  WithDeadline parent (now + timeout)

/-! ## The server package -/

/-- The chi router: the routes registered on it. -/
structure Mux where
  routes : List String
  deriving DecidableEq, Repr

/-- Go `chi.NewMux()`: a router without routes. -/
def NewMux : Mux := ⟨[]⟩

/-- Go `http.Server`: the fields `New` sets, and the two pieces of internal state
that decide whether the engine is listening (`inShutdown`, and the number of
tracked listeners).  Fields not named in a composite literal are zero.

`shutdownCalls` is a history variable, not a Go field: the contexts with which
`Shutdown` has been entered on this engine, oldest first.  It is written by the
engine only, and lets a caller's invocations be counted. -/
structure HttpServer where
  Addr : String
  Handler : Mux
  ReadTimeout : Duration
  ReadHeaderTimeout : Duration
  WriteTimeout : Duration
  IdleTimeout : Duration
  inShutdown : Bool := false
  listeners : Nat := 0
  shutdownCalls : List Context := []
  deriving DecidableEq, Repr

/-- Go `type Server struct { address string; mux chi.Router; server *http.Server }`. -/
structure Server where
  address : String
  mux : Mux
  server : Option HttpServer
  deriving DecidableEq, Repr

/-- Go `type Options struct { Host string; Port int }`. -/
structure Options where
  Host : String
  Port : Int
  deriving DecidableEq, Repr

/-- Go `func New(opts Options) *Server`. -/
def New (opts : Options) : Server :=
  let address := JoinHostPort opts.Host (Itoa opts.Port)
  let mux := NewMux
  { address := address
    mux := mux
    server := some
      { Addr := address
        Handler := mux
        ReadTimeout := 5 * Second
        ReadHeaderTimeout := 5 * Second
        WriteTimeout := 5 * Second
        IdleTimeout := 5 * Second } }

/-- A run-time panic. -/
inductive Panic where
  | nilDereference : Panic
  deriving DecidableEq, Repr

/-- Calls made by `Start` and `Stop` that are visible outside the package. -/
inductive Event where
  | setupRoutes : Event
  | log (args : List String) : Event
  | listenAndServe (addr : String) : Event
  | withTimeout (parent : Context) (timeout : Duration) : Event
  | shutdown (ctx : Context) : Event
  | cancel (ctx : Context) : Event
  deriving DecidableEq, Repr

/-- Whether the event is a call of the engine's `Shutdown`. -/
def Event.isShutdown : Event → Bool
  | .shutdown _ => true
  | _ => false

/-- What a call of `Start` or `Stop` leaves behind: the server, the returned
`error`, and the calls it made, in order. -/
structure Outcome where
  server : Server
  result : Option GoError
  trace : List Event
  deriving DecidableEq, Repr

/-- Go `func (s *Server) Start() error`.

* `setupRoutes` is the effect of `s.setupRoutes()` on the router (the method is
  defined in another file of the package);
* `listenAndServe` is the engine's `ListenAndServe` method: from the engine's
  state to its new state and the error the call returns;
* `a` is the address `fmt.Errorf` allocates its result at.

The router is shared by `s.mux` and the engine's `Handler`, so both see the
registered routes. -/
def Start (setupRoutes : Mux → Mux)
    (listenAndServe : HttpServer → HttpServer × Option GoError) (a : Nat)
    (s : Server) : Except Panic Outcome :=
  let mux := setupRoutes s.mux
  match s.server with
  | none => .error .nilDereference
  | some srv =>
    let r := listenAndServe { srv with Handler := mux }
    let s1 : Server := { s with mux := mux, server := some r.1 }
    let tr := [Event.setupRoutes, .log ["Starting On ", s.address], .listenAndServe srv.Addr]
    match r.2 with
    | some err =>
      if errorsIs (some err) (some ErrServerClosed) then
        .ok ⟨s1, some (Errorf a "server closed error"), tr⟩
      else
        .ok ⟨s1, some (ErrorfW a "error starting server: " err), tr⟩
    | none => .ok ⟨s1, none, tr⟩

/-- The context `Stop` hands to the engine:
`context.WithTimeout(context.Background(), 30*time.Second)` taken at clock
reading `now`. -/
def stopContext (now : Int) : Context :=
  WithTimeout now .background (30 * Second)

/-- Go `func (s *Server) Stop() error`.

* `now` is the clock reading when `context.WithTimeout` is called;
* `shutdown` is the engine's `Shutdown` method: from the engine's state and the
  context to the new state and the returned error;
* `a` is the address `fmt.Errorf` allocates its result at.

The deferred `cancel()` runs when the function returns. -/
def Stop (now : Int)
    (shutdown : HttpServer → Context → HttpServer × Option GoError) (a : Nat)
    (s : Server) : Except Panic Outcome :=
  let ctx := stopContext now
  match s.server with
  | none => .error .nilDereference
  | some srv =>
    let r := shutdown srv ctx
    let s1 : Server := { s with server := some r.1 }
    let tr := [Event.log ["Stopping"], .withTimeout .background (30 * Second),
      .shutdown ctx, .cancel ctx]
    match r.2 with
    | some err => .ok ⟨s1, some (ErrorfW a "error stopping the server: " err), tr⟩
    | none => .ok ⟨s1, none, tr⟩

/-! ## The engine's lifecycle guard (net/http) -/

/-- Go `(*http.Server).ListenAndServe`, up to the point where the call either
returns or blocks in the accept loop:
```
if srv.shuttingDown() { return ErrServerClosed }
ln, err := net.Listen("tcp", addr)
if err != nil { return err }
return srv.Serve(ln)
```
`bind` is the result of `net.Listen` (`none`: the socket is bound).  When the
socket is bound the listener is tracked and the call blocks; `served` is the
error `Serve` ends with later. -/
def netListenAndServe (bind : Option GoError) (served : GoError)
    (srv : HttpServer) : HttpServer × Option GoError :=
  if srv.inShutdown then (srv, some ErrServerClosed)
  else
    match bind with
    | some err => (srv, some err)
    | none => ({ srv with listeners := srv.listeners + 1 }, some served)

/-- Go `(*http.Server).Shutdown`: `srv.inShutdown.Store(true)`, then every
tracked listener is closed; `drain` is the error the wait for idle connections
ends with (`ctx.Err()` once the deadline passes).  Each entry is recorded, with
its context, in the history variable `shutdownCalls`. -/
def netShutdown (drain : Option GoError) (srv : HttpServer) (ctx : Context) :
    HttpServer × Option GoError :=
  ({ srv with inShutdown := true, listeners := 0,
              shutdownCalls := srv.shutdownCalls ++ [ctx] }, drain)

/-- One call made on a server by its owner, with what the environment answers. -/
inductive Call where
  | start (setupRoutes : Mux → Mux) (a : Nat) (bind : Option GoError)
      (served : GoError) : Call
  | stop (now : Int) (a : Nat) (drain : Option GoError) : Call

/-- The server after one call (a call that panics leaves it as it was). -/
def Call.apply (s : Server) : Call → Server
  | .start f a bind served =>
    match Start f (netListenAndServe bind served) a s with
    | .ok o => o.server
    | .error _ => s
  | .stop now a drain =>
    match Stop now (netShutdown drain) a s with
    | .ok o => o.server
    | .error _ => s

/-- The server after a sequence of calls, oldest first. -/
def runCalls (s : Server) (calls : List Call) : Server :=
  calls.foldl Call.apply s

/-- The server is in the Listening state: its engine has an open listener. -/
def Server.Listening (s : Server) : Bool :=
  match s.server with
  | some srv => decide (0 < srv.listeners)
  | none => false

/-- After a `stop` call the engine is shutting down and has no listener. -/
def Stopped (s : Server) : Prop :=
  ∃ srv, s.server = some srv ∧ srv.inShutdown = true ∧ srv.listeners = 0

/-- The address in the words of the specification: host, a colon and the decimal
port, the host in square brackets when it contains a colon or a percent sign. -/
def specAddress (host : String) (port : Int) : String :=
  (if ':' ∈ host.toList ∨ '%' ∈ host.toList then "[" ++ host ++ "]" else host)
    ++ ":" ++ Itoa port

/-- The server `New` returns for `localhost:8080`, written out. -/
def localServer : Server :=
  New ⟨"localhost", 8080⟩

/-- The engine of `localServer`, written out. -/
def localEngine : HttpServer :=
  { Addr := "localhost:8080"
    Handler := NewMux
    ReadTimeout := 5 * Second
    ReadHeaderTimeout := 5 * Second
    WriteTimeout := 5 * Second
    IdleTimeout := 5 * Second }

/-- An error as `net.Listen` reports it when the port is taken. -/
def addrInUse : GoError :=
  .wrapping 40 "listen tcp 127.0.0.1:8080: bind: address already in use"
    (.plain 41 "address already in use")

/-- Go `context.DeadlineExceeded`. -/
def DeadlineExceeded : GoError :=
  .plain 2 "context deadline exceeded"

/-! ## The entry point -/

/-- The part of the configuration `main` reads: `myConfig.AppConfig.LogFolder`. -/
structure AppConfig where
  LogFolder : String
  deriving DecidableEq, Repr

/-- The value returned by `helper.GetConfig()`. -/
structure Config where
  AppConfig : AppConfig
  deriving DecidableEq, Repr

/-- The calls `main` can make. -/
inductive MainAction where
  | getConfig : MainAction
  | printf (format : String) (cfg : Config) : MainAction
  | println (args : List String) : MainAction
  | configLogurus (cfg : Config) : MainAction
  | serverNew (opts : Options) : MainAction
  | serverStart : MainAction
  | serverStop : MainAction
  deriving DecidableEq, Repr

/-- Go `func main()` of `cmd/server`: the calls it makes, in order, when
`helper.GetConfig()` returns `myConfig`. -/
def main (myConfig : Config) : List MainAction :=
  [ .getConfig,
    .printf "\n\n%+v\n\n" myConfig,
    .println ["LogFolder --", myConfig.AppConfig.LogFolder],
    .configLogurus myConfig,
    .println ["🤓"] ]

/-! ## Lemmas on the library model -/

theorem indexByte_neg_one_le (l : List Char) (b : Char) : -1 ≤ indexByte l b := by
  induction l with
  | nil => simp [indexByte]
  | cons c cs ih =>
    simp only [indexByte]
    split
    · omega
    · split <;> omega

theorem indexByte_nonneg_iff (l : List Char) (b : Char) :
    0 ≤ indexByte l b ↔ b ∈ l := by
  induction l with
  | nil => simp [indexByte]
  | cons c cs ih =>
    simp only [indexByte, List.mem_cons]
    by_cases hc : c = b
    · simp [hc]
    · have hb : ¬ b = c := fun h => hc h.symm
      simp only [hc, if_false, hb, false_or]
      rw [← ih]
      split <;> omega

theorem JoinHostPort_eq (host port : String) :
    JoinHostPort host port
      = (if ':' ∈ host.toList then "[" ++ host ++ "]" else host) ++ ":" ++ port := by
  unfold JoinHostPort IndexByteString
  by_cases h : ':' ∈ host.toList
  · have h0 : indexByte host.toList ':' ≥ 0 := (indexByte_nonneg_iff _ _).2 h
    have hs : "]:" = "]" ++ ":" := by decide
    simp only [h0, h, if_true, hs, String.append_assoc]
  · have h0 : ¬ indexByte host.toList ':' ≥ 0 := fun hh => h ((indexByte_nonneg_iff _ _).1 hh)
    simp only [h0, h, if_false]

theorem GoError.isChain_self (e : GoError) : e.isChain e = true := by
  cases e <;> simp [GoError.isChain, GoError.same]

theorem errorsIs_ErrorfW (a : Nat) (pre : String) (e : GoError) :
    errorsIs (some (ErrorfW a pre e)) (some e) = true := by
  simp [errorsIs, ErrorfW, GoError.isChain, GoError.isChain_self]

theorem closed_text_ne_failure_text (t : String) :
    "server closed error" ≠ "error starting server: " ++ t := by
  intro h
  have hd := congrArg String.data h
  rw [String.data_append] at hd
  have hl : ("error starting server: ".data ++ t.data).head? = some 'e' := rfl
  have hh := congrArg List.head? hd
  rw [hl] at hh
  revert hh
  decide

theorem Start_eq (f : Mux → Mux) (las : HttpServer → HttpServer × Option GoError)
    (a : Nat) (s : Server) (srv : HttpServer) (hs : s.server = some srv) :
    ∃ o, Start f las a s = .ok o
      ∧ o.server = { s with mux := f s.mux,
                            server := some (las { srv with Handler := f s.mux }).1 }
      ∧ o.result =
          (match (las { srv with Handler := f s.mux }).2 with
           | some err =>
             if errorsIs (some err) (some ErrServerClosed) then
               some (Errorf a "server closed error")
             else some (ErrorfW a "error starting server: " err)
           | none => none) := by
  unfold Start
  simp only [hs]
  cases h : (las { srv with Handler := f s.mux }).2 with
  | none => exact ⟨_, rfl, rfl, rfl⟩
  | some err =>
    by_cases hc : errorsIs (some err) (some ErrServerClosed) = true
    · simp only [hc, if_true]; exact ⟨_, rfl, rfl, rfl⟩
    · simp only [hc, if_false]; exact ⟨_, rfl, rfl, rfl⟩

theorem Stop_eq (now : Int) (sd : HttpServer → Context → HttpServer × Option GoError)
    (a : Nat) (s : Server) (srv : HttpServer) (hs : s.server = some srv) :
    ∃ o, Stop now sd a s = .ok o
      ∧ o.server = { s with server := some (sd srv (stopContext now)).1 }
      ∧ o.result = (sd srv (stopContext now)).2.map (ErrorfW a "error stopping the server: ")
      ∧ o.trace = [Event.log ["Stopping"], .withTimeout .background (30 * Second),
          .shutdown (stopContext now), .cancel (stopContext now)] := by
  unfold Stop
  simp only [hs]
  cases h : (sd srv (stopContext now)).2 with
  | none => exact ⟨_, rfl, rfl, rfl, rfl⟩
  | some err => exact ⟨_, rfl, rfl, rfl, rfl⟩

theorem localServer_engine : localServer.server = some localEngine := by
  decide

theorem apply_stop_Stopped (s : Server) (srv : HttpServer) (hs : s.server = some srv)
    (now : Int) (a : Nat) (drain : Option GoError) :
    Stopped (Call.apply s (.stop now a drain)) := by
  obtain ⟨o, ho, hsrv, -, -⟩ := Stop_eq now (netShutdown drain) a s srv hs
  simp only [Call.apply, ho, hsrv]
  exact ⟨_, rfl, rfl, rfl⟩

theorem apply_engine (s : Server) (srv : HttpServer) (hs : s.server = some srv)
    (c : Call) : ∃ v, (Call.apply s c).server = some v := by
  cases c with
  | start f a bind served =>
    obtain ⟨o, ho, hsrv, -⟩ := Start_eq f (netListenAndServe bind served) a s srv hs
    simp only [Call.apply, ho, hsrv]
    exact ⟨_, rfl⟩
  | stop now a drain =>
    obtain ⟨v, hv, -⟩ := apply_stop_Stopped s srv hs now a drain
    exact ⟨v, hv⟩

theorem apply_Stopped (s : Server) (h : Stopped s) (c : Call) :
    Stopped (Call.apply s c) := by
  obtain ⟨srv, hs, hin, hl⟩ := h
  cases c with
  | start f a bind served =>
    obtain ⟨o, ho, hsrv, -⟩ := Start_eq f (netListenAndServe bind served) a s srv hs
    simp only [Call.apply, ho, hsrv]
    refine ⟨_, rfl, ?_, ?_⟩ <;> simp [netListenAndServe, hin, hl]
  | stop now a drain => exact apply_stop_Stopped s srv hs now a drain

theorem runCalls_engine (calls : List Call) (s : Server) (srv : HttpServer)
    (hs : s.server = some srv) : ∃ v, (runCalls s calls).server = some v := by
  induction calls generalizing s srv with
  | nil => exact ⟨srv, hs⟩
  | cons c cs ih =>
    obtain ⟨v, hv⟩ := apply_engine s srv hs c
    exact ih (Call.apply s c) v hv

theorem runCalls_Stopped (calls : List Call) (s : Server) (h : Stopped s) :
    Stopped (runCalls s calls) := by
  induction calls generalizing s with
  | nil => exact h
  | cons c cs ih => exact ih (Call.apply s c) (apply_Stopped s h c)

theorem Stopped_not_Listening (s : Server) (h : Stopped s) : s.Listening = false := by
  obtain ⟨srv, hs, -, hl⟩ := h
  simp [Server.Listening, hs, hl]

theorem runCalls_append (s : Server) (xs ys : List Call) :
    runCalls s (xs ++ ys) = runCalls (runCalls s xs) ys := by
  simp [runCalls, List.foldl_append]

/-! ## Construction -/

/-- C1 (counterexample): for the host `localhost%lo0` (a host name with a zone)
and port 80, `New` yields the address `localhost%lo0:80`, while the address as
the claim words it (brackets for a host with a colon or a percent sign) is
`[localhost%lo0]:80`. -/
theorem New_address_percent_host :
    (New ⟨"localhost%lo0", 80⟩).address = "localhost%lo0:80"
      ∧ specAddress "localhost%lo0" 80 = "[localhost%lo0]:80"
      ∧ (New ⟨"localhost%lo0", 80⟩).address ≠ specAddress "localhost%lo0" 80 := by
  decide

/-- C1 (amended): for every host and port, the address of the server `New` returns
is the host, a colon and the decimal port, the host enclosed in square brackets
exactly when it contains a colon; the engine's `Addr` is that same string. -/
theorem New_address_joined (opts : Options) :
    (New opts).address
        = (if ':' ∈ opts.Host.toList then "[" ++ opts.Host ++ "]" else opts.Host)
            ++ ":" ++ Itoa opts.Port
      ∧ (New opts).server.map HttpServer.Addr = some (New opts).address := by
  refine ⟨?_, rfl⟩
  show JoinHostPort opts.Host (Itoa opts.Port) = _
  exact JoinHostPort_eq _ _

/-- C2: for every options value, the engine `New` builds has its read,
read-header, write and idle timeouts each equal to five seconds
(5 000 000 000 ns). -/
theorem New_timeouts (opts : Options) :
    ∃ srv, (New opts).server = some srv
      ∧ srv.ReadTimeout = 5 * Second ∧ srv.ReadHeaderTimeout = 5 * Second
      ∧ srv.WriteTimeout = 5 * Second ∧ srv.IdleTimeout = 5 * Second
      ∧ 5 * Second = 5000000000 := by
  exact ⟨_, rfl, rfl, rfl, rfl, rfl, by decide⟩

/-! ## Start -/

/-- C3: when `ListenAndServe` returns an error `e1` matching `http.ErrServerClosed`
in one call of `Start` and a value `r2` not matching it in another, the two
results of `Start` differ, their messages differ, the first has no wrapped
cause and the second (for a non-nil `r2`) unwraps to `r2`. -/
theorem Start_closure_distinct_from_failure
    (f g : Mux → Mux) (l1 l2 : HttpServer → HttpServer × Option GoError)
    (a1 a2 : Nat) (s1 s2 : Server) (v1 v2 : HttpServer)
    (e1 : GoError) (r2 : Option GoError)
    (h1 : s1.server = some v1) (h2 : s2.server = some v2)
    (hl1 : (l1 { v1 with Handler := f s1.mux }).2 = some e1)
    (hl2 : (l2 { v2 with Handler := g s2.mux }).2 = r2)
    (hm1 : errorsIs (some e1) (some ErrServerClosed) = true)
    (hm2 : errorsIs r2 (some ErrServerClosed) = false) :
    ∃ o1 o2, Start f l1 a1 s1 = .ok o1 ∧ Start g l2 a2 s2 = .ok o2
      ∧ o1.result ≠ o2.result
      ∧ o1.result.map GoError.Error ≠ o2.result.map GoError.Error
      ∧ o1.result.bind GoError.Unwrap = none
      ∧ (∀ e2, r2 = some e2 → o2.result.bind GoError.Unwrap = some e2) := by
  obtain ⟨o1, ho1, -, hr1⟩ := Start_eq f l1 a1 s1 v1 h1
  obtain ⟨o2, ho2, -, hr2⟩ := Start_eq g l2 a2 s2 v2 h2
  rw [hl1] at hr1
  rw [hl2] at hr2
  simp only [hm1, if_true] at hr1
  refine ⟨o1, o2, ho1, ho2, ?_⟩
  cases r2 with
  | none =>
    simp only at hr2
    rw [hr1, hr2]
    simp [Errorf, GoError.Unwrap]
  | some e2 =>
    simp only [hm2, Bool.false_eq_true, if_false] at hr2
    rw [hr1, hr2]
    have ht := closed_text_ne_failure_text e2.Error
    refine ⟨?_, ?_, rfl, ?_⟩
    · simp [Errorf, ErrorfW]
    · intro h
      exact ht (Option.some.inj h)
    · intro e he
      cases he
      rfl

/-- C3 (witness): a closed engine against a port that is taken. -/
theorem Start_closure_distinct_from_failure_witness :
    ∃ o1 o2,
      Start id (fun v => (v, some ErrServerClosed)) 7 localServer = .ok o1
      ∧ Start id (fun v => (v, some addrInUse)) 8 localServer = .ok o2
      ∧ o1.result ≠ o2.result
      ∧ o1.result.map GoError.Error ≠ o2.result.map GoError.Error
      ∧ o1.result.bind GoError.Unwrap = none
      ∧ (∀ e2, some addrInUse = some e2 → o2.result.bind GoError.Unwrap = some e2) :=
  Start_closure_distinct_from_failure id id (fun v => (v, some ErrServerClosed))
    (fun v => (v, some addrInUse)) 7 8 localServer localServer localEngine localEngine
    ErrServerClosed (some addrInUse) localServer_engine localServer_engine rfl rfl
    (by decide) (by decide)

/-- C4: when `ListenAndServe` returns a non-nil error `e` that does not match
`http.ErrServerClosed`, `Start` returns a non-nil error that unwraps to `e`, for
which `errors.Is(result, e)` holds, and whose message is
"error starting server: " followed by the message of `e`. -/
theorem Start_failure_wraps
    (f : Mux → Mux) (las : HttpServer → HttpServer × Option GoError) (a : Nat)
    (s : Server) (srv : HttpServer) (e : GoError)
    (hs : s.server = some srv)
    (hl : (las { srv with Handler := f s.mux }).2 = some e)
    (hm : errorsIs (some e) (some ErrServerClosed) = false) :
    ∃ o r, Start f las a s = .ok o ∧ o.result = some r
      ∧ r.Unwrap = some e
      ∧ errorsIs (some r) (some e) = true
      ∧ r.Error = "error starting server: " ++ e.Error := by
  obtain ⟨o, ho, -, hr⟩ := Start_eq f las a s srv hs
  rw [hl] at hr
  simp only [hm, Bool.false_eq_true, if_false] at hr
  exact ⟨o, _, ho, hr, rfl, errorsIs_ErrorfW _ _ _, rfl⟩

/-- C4 (witness): the port is taken. -/
theorem Start_failure_wraps_witness :
    ∃ o r, Start id (fun v => (v, some addrInUse)) 8 localServer = .ok o
      ∧ o.result = some r
      ∧ r.Unwrap = some addrInUse
      ∧ errorsIs (some r) (some addrInUse) = true
      ∧ r.Error = "error starting server: " ++ addrInUse.Error :=
  Start_failure_wraps id (fun v => (v, some addrInUse)) 8 localServer localEngine
    addrInUse localServer_engine rfl (by decide)

/-- C10: when `ListenAndServe` returns an error matching `http.ErrServerClosed`,
`Start` returns a non-nil error whose message is exactly "server closed error",
which has no wrapped cause and for which `errors.Is(result, http.ErrServerClosed)`
is false; and `Start` returns nil exactly when `ListenAndServe` returns nil. -/
theorem Start_closed_result
    (f : Mux → Mux) (las : HttpServer → HttpServer × Option GoError) (a : Nat)
    (s : Server) (srv : HttpServer)
    (hs : s.server = some srv) (hfresh : a ≠ addrErrServerClosed) :
    ∃ o, Start f las a s = .ok o
      ∧ (o.result = none ↔ (las { srv with Handler := f s.mux }).2 = none)
      ∧ (∀ e, (las { srv with Handler := f s.mux }).2 = some e →
          errorsIs (some e) (some ErrServerClosed) = true →
          ∃ r, o.result = some r ∧ r.Error = "server closed error"
            ∧ r.Unwrap = none
            ∧ errorsIs (some r) (some ErrServerClosed) = false) := by
  obtain ⟨o, ho, -, hr⟩ := Start_eq f las a s srv hs
  refine ⟨o, ho, ?_, ?_⟩
  · cases hl : (las { srv with Handler := f s.mux }).2 with
    | none => rw [hl] at hr; simp [hr]
    | some e =>
      rw [hl] at hr
      by_cases hc : errorsIs (some e) (some ErrServerClosed) = true
      · simp [hr, hc]
      · simp [hr, hc]
  · intro e hl hc
    rw [hl] at hr
    simp only [hc, if_true] at hr
    refine ⟨_, hr, rfl, rfl, ?_⟩
    simp [errorsIs, Errorf, GoError.isChain, GoError.same, ErrServerClosed, GoError.ident,
      hfresh]

/-- C10 (witness): the engine was closed by `Shutdown`. -/
theorem Start_closed_result_witness :
    ∃ o, Start id (fun v => (v, some ErrServerClosed)) 7 localServer = .ok o
      ∧ (o.result = none ↔ (some ErrServerClosed : Option GoError) = none)
      ∧ (∀ e, some ErrServerClosed = some e →
          errorsIs (some e) (some ErrServerClosed) = true →
          ∃ r, o.result = some r ∧ r.Error = "server closed error"
            ∧ r.Unwrap = none
            ∧ errorsIs (some r) (some ErrServerClosed) = false) :=
  Start_closed_result id (fun v => (v, some ErrServerClosed)) 7 localServer localEngine
    localServer_engine (by decide)

/-! ## Stop -/

/-- C5: on a server with an engine, `Stop` returns nil exactly when the engine's
`Shutdown` returns nil, and for every non-nil error `e` returned by `Shutdown`
it returns a non-nil error that unwraps to `e`, for which `errors.Is(result, e)`
holds, and whose message is "error stopping the server: " followed by the
message of `e`. -/
theorem Stop_result
    (now : Int) (sd : HttpServer → Context → HttpServer × Option GoError) (a : Nat)
    (s : Server) (srv : HttpServer) (hs : s.server = some srv) :
    ∃ o, Stop now sd a s = .ok o
      ∧ (o.result = none ↔ (sd srv (stopContext now)).2 = none)
      ∧ (∀ e, (sd srv (stopContext now)).2 = some e →
          ∃ r, o.result = some r ∧ r.Unwrap = some e
            ∧ errorsIs (some r) (some e) = true
            ∧ r.Error = "error stopping the server: " ++ e.Error) := by
  obtain ⟨o, ho, -, hr, -⟩ := Stop_eq now sd a s srv hs
  refine ⟨o, ho, ?_, ?_⟩
  · rw [hr]
    cases (sd srv (stopContext now)).2 <;> simp
  · intro e he
    rw [he] at hr
    exact ⟨_, hr, rfl, errorsIs_ErrorfW _ _ _, rfl⟩

/-- C5 (witness): the drain runs into the deadline. -/
theorem Stop_result_witness :
    ∃ o, Stop 0 (fun v _ => (v, some DeadlineExceeded)) 9 localServer = .ok o
      ∧ (o.result = none ↔ (some DeadlineExceeded : Option GoError) = none)
      ∧ (∀ e, some DeadlineExceeded = some e →
          ∃ r, o.result = some r ∧ r.Unwrap = some e
            ∧ errorsIs (some r) (some e) = true
            ∧ r.Error = "error stopping the server: " ++ e.Error) :=
  Stop_result 0 (fun v _ => (v, some DeadlineExceeded)) 9 localServer localEngine
    localServer_engine

/-- C6: on a server with an engine, a call of `Stop` at clock reading `now` calls
the engine's `Shutdown` exactly once, with the context derived from the
background context whose deadline is `now` plus 30 seconds (30 000 000 000 ns);
the context depends on nothing but the clock reading.

For every behaviour `sd` of the engine, the context `Stop` builds is that one,
the engine `Stop` leaves behind is the one a single application of `sd` to the
engine and that context produces, and
the error returned comes from that same application; the trace holds one
`Shutdown` call, with that context; and the net/http engine, which records each
entry of `Shutdown`, has after `Stop` exactly one more record than before, the
record of that context. -/
theorem Stop_shutdown_once
    (now : Int) (sd : HttpServer → Context → HttpServer × Option GoError) (a : Nat)
    (s : Server) (srv : HttpServer) (hs : s.server = some srv) :
    ∃ o, Stop now sd a s = .ok o
      ∧ stopContext now = .withDeadline .background (now + 30 * Second)
      ∧ o.server = { s with server := some (sd srv (stopContext now)).1 }
      ∧ o.result
          = (sd srv (stopContext now)).2.map (ErrorfW a "error stopping the server: ")
      ∧ o.trace.filter Event.isShutdown
          = [.shutdown (.withDeadline .background (now + 30 * Second))]
      ∧ (Context.withDeadline .background (now + 30 * Second)).Deadline
          = some (now + 30000000000)
      ∧ (∀ drain, ∃ o1, Stop now (netShutdown drain) a s = .ok o1
          ∧ o1.server.server.map HttpServer.shutdownCalls
              = some (srv.shutdownCalls
                  ++ [.withDeadline .background (now + 30 * Second)])) := by
  obtain ⟨o, ho, hsrv, hr, ht⟩ := Stop_eq now sd a s srv hs
  refine ⟨o, ho, rfl, hsrv, hr, ?_, ?_, ?_⟩
  · rw [ht]
    rfl
  · simp [Context.Deadline, Second]
  · intro drain
    obtain ⟨o1, ho1, hsrv1, -, -⟩ := Stop_eq now (netShutdown drain) a s srv hs
    refine ⟨o1, ho1, ?_⟩
    rw [hsrv1]
    rfl

/-- C6 (witness): stopping the server built for localhost:8080 at clock reading
100; its engine has received no `Shutdown` before and has received exactly one,
with deadline 100 + 30 s, afterwards. -/
theorem Stop_shutdown_once_witness :
    ∃ o, Stop 100 (fun v _ => (v, none)) 9 localServer = .ok o
      ∧ stopContext 100 = .withDeadline .background (100 + 30 * Second)
      ∧ o.server = { localServer with server := some localEngine }
      ∧ o.result = none
      ∧ o.trace.filter Event.isShutdown
          = [.shutdown (.withDeadline .background (100 + 30 * Second))]
      ∧ (Context.withDeadline .background (100 + 30 * Second)).Deadline
          = some (100 + 30000000000)
      ∧ (∀ drain, ∃ o1, Stop 100 (netShutdown drain) 9 localServer = .ok o1
          ∧ o1.server.server.map HttpServer.shutdownCalls
              = some (localEngine.shutdownCalls
                  ++ [.withDeadline .background (100 + 30 * Second)])) :=
  Stop_shutdown_once 100 (fun v _ => (v, none)) 9 localServer localEngine
    localServer_engine

/-- C7: on a server returned by `New` the engine pointer is non-nil, so `Stop`
called before any `Start` does not panic, and its result is the `Shutdown`
result wrapped by "error stopping the server: " (nil for nil); after a `Start`
on that server `Stop` still does not panic and its result is the same function
of the `Shutdown` result. -/
theorem Stop_before_Start
    (opts : Options) (now : Int)
    (sd : HttpServer → Context → HttpServer × Option GoError) (a : Nat)
    (f : Mux → Mux) (las : HttpServer → HttpServer × Option GoError) (a0 : Nat) :
    (∃ srv o, (New opts).server = some srv
        ∧ Stop now sd a (New opts) = .ok o
        ∧ o.result
            = (sd srv (stopContext now)).2.map (ErrorfW a "error stopping the server: "))
      ∧ (∃ started srv1 o1, Start f las a0 (New opts) = .ok started
        ∧ started.server.server = some srv1
        ∧ Stop now sd a started.server = .ok o1
        ∧ o1.result
            = (sd srv1 (stopContext now)).2.map (ErrorfW a "error stopping the server: ")) := by
  constructor
  · obtain ⟨o, ho, -, hr, -⟩ := Stop_eq now sd a (New opts) _ rfl
    exact ⟨_, o, rfl, ho, hr⟩
  · obtain ⟨st, hst, hsrv, -⟩ := Start_eq f las a0 (New opts) _ rfl
    have hs1 : st.server.server = some (las { (Option.get (New opts).server rfl) with
        Handler := f (New opts).mux }).1 := by
      rw [hsrv]
      rfl
    obtain ⟨o1, ho1, -, hr1, -⟩ := Stop_eq now sd a st.server _ hs1
    exact ⟨st, _, o1, hst, hs1, ho1, hr1⟩

/-! ## Lifecycle -/

/-- C8: a new server is not listening; a `Start` whose socket binds puts it in
the Listening state; and in every sequence of `Start` and `Stop` calls on a
server returned by `New`, at every point after a `Stop` call the server is not
in the Listening state, whatever `Start` calls came later. -/
theorem no_listening_after_stop
    (opts : Options) (f : Mux → Mux) (a0 : Nat) (served : GoError)
    (before after : List Call) (now : Int) (a : Nat) (drain : Option GoError) :
    (New opts).Listening = false
      ∧ (runCalls (New opts) [.start f a0 none served]).Listening = true
      ∧ (runCalls (New opts) (before ++ .stop now a drain :: after)).Listening = false := by
  refine ⟨rfl, ?_, ?_⟩
  · obtain ⟨o, ho, hsrv, -⟩ :=
      Start_eq f (netListenAndServe none served) a0 (New opts) _ rfl
    simp only [runCalls, List.foldl, Call.apply, ho, hsrv]
    simp [Server.Listening, netListenAndServe, New]
  rw [runCalls_append]
  obtain ⟨v, hv⟩ := runCalls_engine before (New opts) _ rfl
  have hstop := apply_stop_Stopped (runCalls (New opts) before) v hv now a drain
  exact Stopped_not_Listening _ (runCalls_Stopped after _ hstop)

/-! ## Entry point -/

/-- C9: whatever configuration is loaded, `main` makes exactly five calls (load
the configuration, two prints, configure logging, one print); it never
constructs a server and never calls `Start` or `Stop`. -/
theorem main_never_starts_server (cfg : Config) :
    (main cfg).length = 5
      ∧ MainAction.serverStart ∉ main cfg
      ∧ MainAction.serverStop ∉ main cfg
      ∧ ∀ opts, MainAction.serverNew opts ∉ main cfg := by
  simp [main]

end CloudApp
